import Mathlib

/-!
Shallow embedding of the Modbus RTU slave implementation
(SimpleModbusSlave.cpp / SimpleModbusSlave.h, an Arduino port of modbusino).

Modelling conventions:
* Bytes are `Nat` values; every store into a `uint8_t` location is reduced
  modulo 256, every store into a `uint16_t` location modulo 65536, mirroring
  the C types.  The target platform is an Arduino Mega (the code uses
  `Serial2`, `WProgram.h`, `pins_arduino.h`), whose avr-gcc `int` is 16 bits:
  `uint16_t` operands therefore promote to 16-bit unsigned arithmetic, so the
  sum `address + nb` inside `reply` is reduced modulo 65536 exactly as the
  hardware computes it.
* The incoming serial byte stream is a `List Nat`; running out of bytes while
  a frame is still incomplete corresponds to the per-byte poll timeout of
  `receive` (ten 1 ms polls with no data).  `flush` only drains the external
  line and touches no program state, so it has no counterpart in the state.
* The checksum primitive `crc16` is an external black box (the spec treats it
  as such); all definitions are parameterised by it.  `add_crc16` appends two
  externally computed checksum bytes to an outgoing message; transmitted
  messages are recorded before that external append, i.e. as the
  `msg_length` bytes handed to `send_msg`.
* The request buffer `req` is the list of bytes written so far: the C code
  writes `req[req_index]` and then increments `req_index`, which is exactly
  `req ++ [byte]` with `req_index = req.length` (reduced mod 256 where the
  `uint8_t` counter is read back).
-/

namespace SimpleModbusSlave

/-- Offset of the station address byte (`_MODBUS_RTU_SLAVE`). -/
def MODBUS_RTU_SLAVE : Nat := 0

/-- Offset of the function code byte (`_MODBUS_RTU_FUNCTION`). -/
def MODBUS_RTU_FUNCTION : Nat := 1

/-- Number of checksum bytes at the end of a frame (`_MODBUS_RTU_CHECKSUM_LENGTH`). -/
def MODBUS_RTU_CHECKSUM_LENGTH : Nat := 2

/-- Maximum ADU size (`_MODBUSINO_RTU_MAX_ADU_LENGTH`). -/
def MAX_ADU_LENGTH : Nat := 256

/-- Function code of the register read request (`_FC_READ_HOLDING_REGISTERS`). -/
def FC_READ_HOLDING_REGISTERS : Nat := 0x03

/-- Function code of the multi register write request (`_FC_WRITE_MULTIPLE_REGISTERS`). -/
def FC_WRITE_MULTIPLE_REGISTERS : Nat := 0x10

/-- The broadcast address (`MODBUS_BROADCAST_ADDRESS`, header). -/
def MODBUS_BROADCAST_ADDRESS : Nat := 0

/-- Exception code 1 (`MODBUS_EXCEPTION_ILLEGAL_FUNCTION`, header). -/
def MODBUS_EXCEPTION_ILLEGAL_FUNCTION : Nat := 1

/-- Exception code 2 (`MODBUS_EXCEPTION_ILLEGAL_DATA_ADDRESS`, header). -/
def MODBUS_EXCEPTION_ILLEGAL_DATA_ADDRESS : Nat := 2

/-- Exception code 3 (`MODBUS_EXCEPTION_ILLEGAL_DATA_VALUE`, header). -/
def MODBUS_EXCEPTION_ILLEGAL_DATA_VALUE : Nat := 3

/-- Modelled from the spec: the macro `MODBUS_INFORMATIVE_NOT_FOR_US` is used by
`receive` but its definition is missing from the available sources (the header
shipped in `src/` predates it).  The status comment of `SimpleModbusSlave::loop`
documents the return value `-6` for a frame not addressed to this station, and
the code returns `-1 - MODBUS_INFORMATIVE_NOT_FOR_US`, so the value is 5. -/
def MODBUS_INFORMATIVE_NOT_FOR_US : Nat := 5

/-- Modelled from the spec: the macro `MODBUS_INFORMATIVE_RX_TIMEOUT` is used by
`receive` but its definition is missing from the available sources.  The status
comment of `SimpleModbusSlave::loop` documents `-7` for a receive timeout and the
code returns `-1 - MODBUS_INFORMATIVE_RX_TIMEOUT`, so the value is 6. -/
def MODBUS_INFORMATIVE_RX_TIMEOUT : Nat := 6

/-- Reception step marker `_STEP_FUNCTION` (enum value 0x01). -/
def STEP_FUNCTION : Nat := 1

/-- Reception step marker `_STEP_META`. -/
def STEP_META : Nat := 2

/-- Reception step marker `_STEP_DATA`. -/
def STEP_DATA : Nat := 3

/-- Result of one call to `receive`: the returned status, the request buffer as
written so far, and the messages handed to `send_msg` (without the two
externally appended checksum bytes). -/
structure RxOut where
  status : Int
  req : List Nat
  sent : List (List Nat)
deriving DecidableEq

/-- Result of one `SimpleModbusSlave::loop` cycle: the returned status, the
register table after the cycle, and all transmitted messages. -/
structure CycleOut where
  status : Int
  tab : List Nat
  sent : List (List Nat)
deriving DecidableEq

/-- `check_integrity(msg, msg_length)`: a frame of at least two bytes whose
crc16 over the whole buffer is zero is accepted with its length as the result,
anything else yields -1.  `msg` is the list of the first `msg_length` buffer
bytes; `crc16` is the external checksum primitive. -/
def check_integrity (crc16 : List Nat → Nat) (msg : List Nat) : Int :=
  if 2 ≤ msg.length ∧ crc16 msg = 0 then (msg.length : Int) else -1

/-- `build_response_basis(slave, function, rsp)`: writes the address and
function bytes at the start of a response. -/
def build_response_basis (slave function : Nat) : List Nat :=
  [slave, function]

/-- `response_exception(slave, function, exception_code, rsp)`: response basis
with `function + 0x80` (the argument is converted to `uint8_t` at the call, so
the sum is reduced modulo 256 — note the source uses `+`, not a bitwise or)
followed by the single exception code byte. -/
def response_exception (slave function exception_code : Nat) : List Nat :=
  build_response_basis slave ((function + 0x80) % 256) ++ [exception_code]

/-- Exit of the reception loop: `check_integrity(req, req_index)` where
`req_index` is the `uint8_t` count of bytes written, i.e. `req.length % 256`.
Nothing is transmitted on this path. -/
def finishReceive (crc16 : List Nat → Nat) (req : List Nat) : RxOut :=
  ⟨check_integrity crc16 (req.take (req.length % 256)), req, []⟩

/-- Outcome of the step-completion block of `receive` (the body of
`if (length_to_read == 0) { ... }`): either the function returns (`done`), or
the loop continues with a new step marker, a new `length_to_read` and the
latched function code (`more`). -/
inductive StepRes where
  | done : RxOut → StepRes
  | more : Nat → Nat → Nat → StepRes
deriving DecidableEq

/-- The step-completion block of `receive`, entered each time
`length_to_read` reaches zero with `req` the bytes received so far.

* The address filter comes first: the C condition is
  `req[_MODBUS_RTU_SLAVE] != _slave && req[_MODBUS_RTU_SLAVE != MODBUS_BROADCAST_ADDRESS]`,
  whose second operand indexes `req` with the boolean value of `0 != 0`
  (that is, `req[0]`) and then tests it for truth (`≠ 0`); the index
  expression is kept verbatim as an if-then-else.
* `_STEP_FUNCTION`: latch the function code; 4 more bytes for a read, 5 for a
  write; any other code flushes the line and, when the frame is addressed to
  this station or broadcast, transmits an Illegal-Function exception built
  with the configured `_slave` address and returns
  `-1 - MODBUS_EXCEPTION_ILLEGAL_FUNCTION`; otherwise returns -1.
* `_STEP_META`: `length_to_read` becomes the checksum length plus, for a
  write, the byte count field `req[_MODBUS_RTU_FUNCTION + 5]` (a `uint8_t`
  sum, reduced modulo 256).  If `req_index + length_to_read` exceeds the
  maximum ADU length the line is flushed and, when addressed to this station
  or broadcast, an Illegal-Data-Value exception is transmitted while the
  function returns `-1 - MODBUS_EXCEPTION_ILLEGAL_FUNCTION` (sic: the source
  returns the illegal-function offset on this path); otherwise -1.  When the
  new `length_to_read` is zero the while loop exits and the integrity check
  runs.
* `_STEP_DATA`: no switch case matches, the loop exits, the integrity check
  runs. -/
def onComplete (crc16 : List Nat → Nat) (slave : Nat) (req : List Nat)
    (step function : Nat) : StepRes :=
  if req.getD MODBUS_RTU_SLAVE 0 ≠ slave ∧
      req.getD (if MODBUS_RTU_SLAVE ≠ MODBUS_BROADCAST_ADDRESS then 1 else 0) 0 ≠ 0 then
    StepRes.done ⟨-1 - (MODBUS_INFORMATIVE_NOT_FOR_US : Int), req, []⟩
  else if step = STEP_FUNCTION then
    let fn := req.getD MODBUS_RTU_FUNCTION 0
    if fn = FC_READ_HOLDING_REGISTERS then
      StepRes.more STEP_META 4 fn
    else if fn = FC_WRITE_MULTIPLE_REGISTERS then
      StepRes.more STEP_META 5 fn
    else if req.getD MODBUS_RTU_SLAVE 0 = slave ∨
        req.getD MODBUS_RTU_SLAVE 0 = MODBUS_BROADCAST_ADDRESS then
      StepRes.done ⟨-1 - (MODBUS_EXCEPTION_ILLEGAL_FUNCTION : Int), req,
        [response_exception slave fn MODBUS_EXCEPTION_ILLEGAL_FUNCTION]⟩
    else
      StepRes.done ⟨-1, req, []⟩
  else if step = STEP_META then
    let ltr2 :=
      if function = FC_WRITE_MULTIPLE_REGISTERS then
        (MODBUS_RTU_CHECKSUM_LENGTH + req.getD (MODBUS_RTU_FUNCTION + 5) 0) % 256
      else MODBUS_RTU_CHECKSUM_LENGTH
    if req.length % 256 + ltr2 > MAX_ADU_LENGTH then
      if req.getD MODBUS_RTU_SLAVE 0 = slave ∨
          req.getD MODBUS_RTU_SLAVE 0 = MODBUS_BROADCAST_ADDRESS then
        StepRes.done ⟨-1 - (MODBUS_EXCEPTION_ILLEGAL_FUNCTION : Int), req,
          [response_exception slave function MODBUS_EXCEPTION_ILLEGAL_DATA_VALUE]⟩
      else
        StepRes.done ⟨-1, req, []⟩
    else if ltr2 = 0 then
      StepRes.done (finishReceive crc16 req)
    else
      StepRes.more STEP_DATA ltr2 function
  else
    StepRes.done (finishReceive crc16 req)

/-- The while loop of `receive`: one iteration reads a byte into the buffer
(`req[req_index] = Serial2.read()`), decrements `length_to_read` and, when it
reaches zero, runs the step-completion block.  An empty input stream while
bytes are still expected is the per-byte timeout
(`return -1 - MODBUS_INFORMATIVE_RX_TIMEOUT`). -/
def receiveAux (crc16 : List Nat → Nat) (slave : Nat) :
    List Nat → List Nat → Nat → Nat → Nat → RxOut
  | [], req, _step, _ltr, _function =>
    ⟨-1 - (MODBUS_INFORMATIVE_RX_TIMEOUT : Int), req, []⟩
  | b :: rest, req, step, ltr, function =>
    let req2 := req ++ [b % 256]
    if ltr - 1 = 0 then
      match onComplete crc16 slave req2 step function with
      | StepRes.done r => r
      | StepRes.more step2 ltr2 fn2 => receiveAux crc16 slave rest req2 step2 ltr2 fn2
    else
      receiveAux crc16 slave rest req2 step (ltr - 1) function

/-- `receive(req, _slave)`: start at `_STEP_FUNCTION` expecting
`_MODBUS_RTU_FUNCTION + 1` bytes with an empty buffer (the uninitialised
local `function` is modelled as 0; it is never read before being latched). -/
def receive (crc16 : List Nat → Nat) (slave : Nat) (input : List Nat) : RxOut :=
  receiveAux crc16 slave input [] STEP_FUNCTION (MODBUS_RTU_FUNCTION + 1) 0

/-- The write loop of `reply`:
`for (i = address, j = 6; i < address + nb; i++, j += 2)
   tab_reg[i] = (req[1 + j] << 8) + req[1 + j + 1];`
modelled with the iteration count `n` made explicit; the decoded value is
stored into the `uint16_t` table slot, hence the reduction modulo 65536. -/
def writeLoop (req : List Nat) : List Nat → Nat → Nat → Nat → List Nat
  | tab_reg, _i, _j, 0 => tab_reg
  | tab_reg, i, j, n + 1 =>
    writeLoop req
      (tab_reg.set i ((req.getD (MODBUS_RTU_FUNCTION + j) 0 * 256 +
        req.getD (MODBUS_RTU_FUNCTION + j + 1) 0) % 65536))
      (i + 1) (j + 2) n

/-- The read loop of `reply`: for each register from `i` upward append
`tab_reg[i] >> 8` and `tab_reg[i] & 0xFF` (each stored into a `uint8_t`
response slot, hence the reductions modulo 256).  This is the sequence of
bytes the loop pushes through `rsp[rsp_length++]`; where those stores land in
the 256-byte buffer is modelled by `rspStore` below. -/
def readLoop (tab_reg : List Nat) : Nat → Nat → List Nat
  | _i, 0 => []
  | i, n + 1 =>
    tab_reg.getD i 0 / 256 % 256 :: tab_reg.getD i 0 % 256 :: readLoop tab_reg (i + 1) n

/-- The effect of pushing a sequence of bytes through `rsp[rsp_length++]`
into the 256-byte `rsp` buffer of `reply`: `i` counts the writes issued so
far, and the `uint8_t` counter read back as the store index is `i % 256`, so
after 256 writes the stores wrap and overwrite the front of the buffer. -/
def rspStore : List Nat → Nat → List Nat → List Nat
  | buf, _i, [] => buf
  | buf, i, b :: bs => rspStore (buf.set (i % 256) b) (i + 1) bs

/-- The message `reply` hands to `send_msg`: the bytes `w` pushed through
`rsp[rsp_length++]` land in the 256-byte buffer via `rspStore`, and
`send_msg(rsp, rsp_length)` transmits the first `rsp_length` buffer bytes,
where the final `uint8_t` counter is `w.length % 256`.  The buffer is an
uninitialised stack array; the fill value 0 used here is never transmitted,
because every transmitted position has been written (when fewer than 256
bytes were pushed the prefix is exactly the pushed bytes, and otherwise all
256 slots were written at least once). -/
def sendBuffer (w : List Nat) : List Nat :=
  (rspStore (List.replicate 256 0) 0 w).take (w.length % 256)

/-- `reply(tab_reg, nb_reg, req, req_length, _slave)`: dispatch one verified
request frame.  Returns the register table after the call and the transmitted
response (without the two externally appended checksum bytes), or `none` when
the defensive address re-check returns without transmitting.

16-bit decode: `(req[_MODBUS_RTU_FUNCTION + 1] << 8) + req[_MODBUS_RTU_FUNCTION + 2]`
stored into `uint16_t` (reduced modulo 65536), likewise for the count.  The
bounds test `(address + nb) > nb_reg` is 16-bit unsigned arithmetic on the
target (avr-gcc `int` is 16 bits), so the sum wraps modulo 65536.  The loop
bound `i < address + nb` uses the same wrapped sum, giving
`(address + nb) % 65536 - address` iterations (zero when the sum wrapped).
The write acknowledgment copies 4 bytes verbatim from the request
(`memcpy(rsp + rsp_length, req + rsp_length, 4)` with `rsp_length = 2`).
Every response is assembled through `rsp[rsp_length++]` into the 256-byte
`rsp` array with a `uint8_t` counter and transmitted as the first
`rsp_length` buffer bytes: `sendBuffer` applies that wrap to the pushed byte
sequence (for the 3-byte exception and 6-byte write acknowledgment it is the
identity; a read response longer than 255 bytes wraps and overwrites its own
header).  The parameter `req_length` is dead in the source after the unused
`req_length -= _MODBUS_RTU_CHECKSUM_LENGTH` and is kept only for shape. -/
def reply (tab_reg : List Nat) (nb_reg : Nat) (req : List Nat)
    (req_length : Nat) (slave : Nat) : List Nat × Option (List Nat) :=
  let rslave := req.getD MODBUS_RTU_SLAVE 0
  let function := req.getD MODBUS_RTU_FUNCTION 0
  let address := (req.getD (MODBUS_RTU_FUNCTION + 1) 0 * 256 +
    req.getD (MODBUS_RTU_FUNCTION + 2) 0) % 65536
  let nb := (req.getD (MODBUS_RTU_FUNCTION + 3) 0 * 256 +
    req.getD (MODBUS_RTU_FUNCTION + 4) 0) % 65536
  if rslave ≠ slave ∧ rslave ≠ MODBUS_BROADCAST_ADDRESS then
    (tab_reg, none)
  else if (address + nb) % 65536 > nb_reg then
    (tab_reg, some (sendBuffer
      (response_exception rslave function MODBUS_EXCEPTION_ILLEGAL_DATA_ADDRESS)))
  else if function = FC_READ_HOLDING_REGISTERS then
    (tab_reg, some (sendBuffer (build_response_basis rslave function ++ [nb * 2 % 256] ++
      readLoop tab_reg address ((address + nb) % 65536 - address))))
  else
    (writeLoop req tab_reg address 6 ((address + nb) % 65536 - address),
      some (sendBuffer (build_response_basis rslave function ++ (req.drop 2).take 4)))

/-- `SimpleModbusSlave::loop(tab_reg, nb_reg)`: when no byte is available the
cycle does nothing and returns 0; otherwise run `receive` and, on a positive
status, dispatch the frame through `reply`.  The status of `receive` is
returned unchanged. -/
def loop (crc16 : List Nat → Nat) (slave : Nat) (input : List Nat)
    (tab_reg : List Nat) (nb_reg : Nat) : CycleOut :=
  if input.isEmpty then ⟨0, tab_reg, []⟩
  else
    let r := receive crc16 slave input
    if 0 < r.status then
      let p := reply tab_reg nb_reg r.req r.status.toNat slave
      ⟨r.status, p.1, r.sent ++ p.2.toList⟩
    else
      ⟨r.status, tab_reg, r.sent⟩

/-- A checksum double that accepts every buffer (crc value 0); stands in for
the external black-box primitive in concrete scenarios. -/
def crcAccept : List Nat → Nat := fun _ => 0

/-- A checksum double that rejects every buffer (crc value 1). -/
def crcReject : List Nat → Nat := fun _ => 1

/-- Big-endian register encoding following the words of the spec: each value
in `[s, s + n)` as two bytes, most-significant byte first.  Used to compare
the read loop of the source against the specified payload. -/
def beWords (tab_reg : List Nat) : Nat → Nat → List Nat
  | _s, 0 => []
  | s, n + 1 =>
    tab_reg.getD s 0 / 256 :: tab_reg.getD s 0 % 256 :: beWords tab_reg (s + 1) n

/-- Claim C1, amended: every exception response the slave builds consists of
the address byte, a function byte equal to `(function + 0x80) % 256` — which
coincides with `function OR 0x80` exactly when the function code is below
0x80 — and exactly one payload byte holding the exception code.  For the
unsupported function 0x99 sent to station 5 the receiver therefore transmits
`[5, 0x19, 1]` (not `[5, 0x99, 1]`) and reports the illegal-function
status. -/
theorem C1_exception_response_shape :
    (∀ slave function code, response_exception slave function code =
      [slave, (function + 0x80) % 256, code]) ∧
    (∀ function, function < 0x80 →
      (function + 0x80) % 256 = Nat.lor function 0x80) ∧
    receive crcReject 5 [5, 0x99] =
      ⟨-1 - (MODBUS_EXCEPTION_ILLEGAL_FUNCTION : Int), [5, 0x99],
        [response_exception 5 0x99 MODBUS_EXCEPTION_ILLEGAL_FUNCTION]⟩ ∧
    response_exception 5 0x99 MODBUS_EXCEPTION_ILLEGAL_FUNCTION = [5, 0x19, 1] := by
  refine ⟨fun slave function code => rfl, by decide, by decide, by decide⟩

/-- Claim C1, witness: the amended shape at station 7, function 0x03,
exception code 2, discharging the bound `0x03 < 0x80`. -/
theorem C1_witness :
    response_exception 7 0x03 2 = [7, (0x03 + 0x80) % 256, 2] ∧
    (0x03 + 0x80) % 256 = Nat.lor 0x03 0x80 :=
  ⟨C1_exception_response_shape.1 7 0x03 2,
    C1_exception_response_shape.2.1 0x03 (by decide)⟩

/-- Claim C1 as stated is false on the code: for the unsupported function
0x99 the built exception response carries the function byte 0x19
(`(0x99 + 0x80) % 256`), not `0x99 OR 0x80 = 0x99`. -/
theorem C1_counterexample :
    response_exception 5 0x99 MODBUS_EXCEPTION_ILLEGAL_FUNCTION ≠
      [5, Nat.lor 0x99 0x80, MODBUS_EXCEPTION_ILLEGAL_FUNCTION] := by decide

/-- Claim C2, code-bug evaluation: the write request fragment
`[5, 16, 0, 0, 0, 124, 248]` to station 5 announces a 257-byte frame
(7 bytes received, 2 checksum bytes, 248 data bytes), which exceeds the
256-byte ADU maximum, so the receiver transmits an Illegal-Data-Value
exception (code 3) — yet it returns
`-1 - MODBUS_EXCEPTION_ILLEGAL_FUNCTION = -2`, the illegal-function status,
instead of the distinct illegal-data-value status the claim and the status
comment of `SimpleModbusSlave::loop` call for. -/
theorem C2_oversize_status_eval :
    receive crcReject 5 [5, 16, 0, 0, 0, 124, 248] =
      ⟨-1 - (MODBUS_EXCEPTION_ILLEGAL_FUNCTION : Int), [5, 16, 0, 0, 0, 124, 248],
        [response_exception 5 FC_WRITE_MULTIPLE_REGISTERS
          MODBUS_EXCEPTION_ILLEGAL_DATA_VALUE]⟩ ∧
    -1 - (MODBUS_EXCEPTION_ILLEGAL_FUNCTION : Int) ≠
      -1 - (MODBUS_EXCEPTION_ILLEGAL_DATA_VALUE : Int) := by
  exact ⟨by decide, by decide⟩

/-- Claim C3, code-bug evaluation: with registerCount 10, a verified read
request for start 0xFFFF and count 2 — so start + count = 65537 exceeds 10 —
is dispatched through the 16-bit bounds test `(0xFFFF + 2) % 65536 = 1 ≤ 10`,
so no Illegal-Data-Address exception is built: the transmitted response is
the normal read basis `[5, 3, 4]` with an empty payload (the wrapped loop
bound gives zero iterations), though the register table is indeed neither
read nor written. -/
theorem C3_wrap_bounds_eval :
    reply [7, 7, 7, 7, 7, 7, 7, 7, 7, 7] 10 [5, 3, 255, 255, 0, 2, 0, 0] 8 5 =
      ([7, 7, 7, 7, 7, 7, 7, 7, 7, 7], some [5, 3, 4]) ∧
    255 * 256 + 255 + 2 > 10 ∧
    some [5, 3, 4] ≠
      some (response_exception 5 3 MODBUS_EXCEPTION_ILLEGAL_DATA_ADDRESS) := by
  exact ⟨by decide, by decide, by decide⟩

/-- A two-byte frame head whose address byte matches neither the station nor
the broadcast address makes `receive` return the not-for-us status with
nothing transmitted, whatever bytes follow on the line. -/
lemma receive_not_addressed (crc16 : List Nat → Nat) (slave b0 b1 : Nat) (rest : List Nat)
    (h1 : b0 % 256 ≠ slave) (h2 : b0 % 256 ≠ MODBUS_BROADCAST_ADDRESS) :
    receive crc16 slave (b0 :: b1 :: rest) =
      ⟨-1 - (MODBUS_INFORMATIVE_NOT_FOR_US : Int), [b0 % 256, b1 % 256], []⟩ := by
  rw [ MODBUS_BROADCAST_ADDRESS] at h2
  simp [receive, receiveAux, onComplete, MODBUS_RTU_SLAVE, MODBUS_RTU_FUNCTION,
    MODBUS_BROADCAST_ADDRESS, h1, h2]

/-- Claim C4: a frame whose address byte matches neither the station identity
nor the broadcast address produces no transmission in the whole
receive-then-dispatch cycle — the cycle returns the not-for-us status with
the table untouched — and the dispatcher re-checks the address defensively
and returns without transmitting. -/
theorem C4_not_for_us_silent :
    (∀ (crc16 : List Nat → Nat) (slave b0 b1 : Nat) (rest tab_reg : List Nat) (nb_reg : Nat),
      b0 % 256 ≠ slave → b0 % 256 ≠ MODBUS_BROADCAST_ADDRESS →
      loop crc16 slave (b0 :: b1 :: rest) tab_reg nb_reg =
        ⟨-1 - (MODBUS_INFORMATIVE_NOT_FOR_US : Int), tab_reg, []⟩) ∧
    (∀ (tab_reg : List Nat) (nb_reg : Nat) (req : List Nat) (req_length slave : Nat),
      req.getD MODBUS_RTU_SLAVE 0 ≠ slave →
      req.getD MODBUS_RTU_SLAVE 0 ≠ MODBUS_BROADCAST_ADDRESS →
      reply tab_reg nb_reg req req_length slave = (tab_reg, none)) := by
  constructor
  · intro crc16 slave b0 b1 rest tab_reg nb_reg h1 h2
    rw [loop]
    simp only [List.isEmpty_cons, if_false, Bool.false_eq_true]
    rw [receive_not_addressed crc16 slave b0 b1 rest h1 h2]
    simp [ MODBUS_INFORMATIVE_NOT_FOR_US]
  · intro tab_reg nb_reg req req_length slave h1 h2
    simp only [reply]
    rw [if_pos ⟨h1, h2⟩]

/-- Claim C4, witness: station 5, frame head `[6, 3]` — neither 5 nor
broadcast — yields a silent cycle with status -6, and a full foreign frame
handed to the dispatcher is answered by nothing. -/
theorem C4_witness :
    loop crcAccept 5 [6, 3, 7] [4, 4] 2 =
      ⟨-1 - (MODBUS_INFORMATIVE_NOT_FOR_US : Int), [4, 4], []⟩ ∧
    reply [4, 4] 2 [6, 3, 0, 0, 0, 1, 0, 0] 8 5 = ([4, 4], none) :=
  ⟨C4_not_for_us_silent.1 crcAccept 5 6 3 [7] [4, 4] 2 (by decide) (by decide),
   C4_not_for_us_silent.2 [4, 4] 2 [6, 3, 0, 0, 0, 1, 0, 0] 8 5 (by decide) (by decide)⟩

/-- Claim C8, amended: a frame whose function byte is neither 0x03 nor 0x10
is answered, when its address byte matches the station identity or the
broadcast address, by an Illegal-Function exception built from the configured
station address, with the illegal-function status returned; when the address
byte matches neither, the receiver has already returned the not-for-us status
upon completing the two-byte head — before the function code is examined —
and nothing is transmitted (the generic-error return of the unsupported
function branch is unreachable). -/
theorem C8_unsupported_function :
    ∀ (crc16 : List Nat → Nat) (slave b0 b1 : Nat) (rest : List Nat),
      b1 % 256 ≠ FC_READ_HOLDING_REGISTERS →
      b1 % 256 ≠ FC_WRITE_MULTIPLE_REGISTERS →
      ((b0 % 256 = slave ∨ b0 % 256 = MODBUS_BROADCAST_ADDRESS) →
        receive crc16 slave (b0 :: b1 :: rest) =
          ⟨-1 - (MODBUS_EXCEPTION_ILLEGAL_FUNCTION : Int), [b0 % 256, b1 % 256],
            [response_exception slave (b1 % 256) MODBUS_EXCEPTION_ILLEGAL_FUNCTION]⟩) ∧
      ((b0 % 256 ≠ slave ∧ b0 % 256 ≠ MODBUS_BROADCAST_ADDRESS) →
        receive crc16 slave (b0 :: b1 :: rest) =
          ⟨-1 - (MODBUS_INFORMATIVE_NOT_FOR_US : Int), [b0 % 256, b1 % 256], []⟩) := by
  intro crc16 slave b0 b1 rest h3 h16
  rw [FC_READ_HOLDING_REGISTERS] at h3
  rw [FC_WRITE_MULTIPLE_REGISTERS] at h16
  constructor
  · intro h0
    rcases h0 with h | h
    · simp [receive, receiveAux, onComplete, MODBUS_RTU_SLAVE, MODBUS_RTU_FUNCTION,
        MODBUS_BROADCAST_ADDRESS, STEP_FUNCTION, FC_READ_HOLDING_REGISTERS,
        FC_WRITE_MULTIPLE_REGISTERS, h, h3, h16]
    · rw [ MODBUS_BROADCAST_ADDRESS] at h
      simp [receive, receiveAux, onComplete, MODBUS_RTU_SLAVE, MODBUS_RTU_FUNCTION,
        MODBUS_BROADCAST_ADDRESS, STEP_FUNCTION, FC_READ_HOLDING_REGISTERS,
        FC_WRITE_MULTIPLE_REGISTERS, h, h3, h16]
  · intro h
    exact receive_not_addressed crc16 slave b0 b1 rest h.1 h.2

/-- Claim C8, witness: station 5; the unsupported function 0x99 addressed to
station 5 triggers the Illegal-Function exception with status -2, while the
same function byte addressed to station 6 leaves the line silent with
status -6. -/
theorem C8_witness :
    receive crcAccept 5 [5, 0x99] =
      ⟨-1 - (MODBUS_EXCEPTION_ILLEGAL_FUNCTION : Int), [5, 0x99],
        [response_exception 5 0x99 MODBUS_EXCEPTION_ILLEGAL_FUNCTION]⟩ ∧
    receive crcAccept 5 [6, 0x99] =
      ⟨-1 - (MODBUS_INFORMATIVE_NOT_FOR_US : Int), [6, 0x99], []⟩ :=
  ⟨(C8_unsupported_function crcAccept 5 5 0x99 [] (by decide) (by decide)).1
      (Or.inl (by decide)),
   (C8_unsupported_function crcAccept 5 6 0x99 [] (by decide) (by decide)).2
      ⟨by decide, by decide⟩⟩

/-- Claim C8 as stated is false on the code for a non-matching address: the
cycle for the foreign frame head `[6, 0x99]` reports the not-for-us status
-6, not the generic error -1 the claim asserts. -/
theorem C8_counterexample :
    (receive crcReject 5 [6, 0x99]).status = -1 - (MODBUS_INFORMATIVE_NOT_FOR_US : Int) ∧
    -1 - (MODBUS_INFORMATIVE_NOT_FOR_US : Int) ≠ (-1 : Int) := by decide

/-- Every early return of the step-completion block either transmits nothing
or carries the status `-1 - MODBUS_EXCEPTION_ILLEGAL_FUNCTION` (both exception
paths return that offset — the oversize path by the copy-paste slip noted in
the source). -/
lemma onComplete_done_inv (crc16 : List Nat → Nat) (slave : Nat) (req : List Nat)
    (step function : Nat) (r : RxOut)
    (h : onComplete crc16 slave req step function = StepRes.done r) :
    r.sent = [] ∨ r.status = -1 - (MODBUS_EXCEPTION_ILLEGAL_FUNCTION : Int) := by
  simp only [onComplete] at h
  split_ifs at h <;> first
    | (cases h; exact Or.inl rfl)
    | (cases h; exact Or.inr rfl)
    | simp at h

/-- When `receive` returns the generic error status -1, nothing was
transmitted during reception. -/
lemma receiveAux_sent_nil (crc16 : List Nat → Nat) (slave : Nat) :
    ∀ (input req : List Nat) (step ltr function : Nat),
      (receiveAux crc16 slave input req step ltr function).status = -1 →
      (receiveAux crc16 slave input req step ltr function).sent = [] := by
  intro input
  induction input with
  | nil =>
    intro req step ltr function _h
    rfl
  | cons b rest ih =>
    intro req step ltr function h
    simp only [receiveAux] at h ⊢
    by_cases hl : ltr - 1 = 0
    · rw [if_pos hl] at h ⊢
      cases e : onComplete crc16 slave (req ++ [b % 256]) step function with
      | done r =>
        simp only [e] at h ⊢
        rcases onComplete_done_inv crc16 slave (req ++ [b % 256]) step function r e with
          hs | hs
        · exact hs
        · rw [hs] at h
          norm_num [ MODBUS_EXCEPTION_ILLEGAL_FUNCTION] at h
      | more s2 l2 f2 =>
        simp only [e] at h ⊢
        exact ih _ _ _ _ h
    · rw [if_neg hl] at h ⊢
      exact ih _ _ _ _ h

/-- Claim C5: a fully accumulated frame shorter than 2 bytes or with a
failing checksum is rejected by `check_integrity` with the generic error -1;
on checksum success the consumed byte count (checksum included) is returned
as the verified length; a cycle whose reception ends with the generic error
transmits nothing and leaves the table untouched; and -1 is distinct from
every exception, not-for-us and timeout status. -/
theorem C5_integrity_gate :
    (∀ (crc16 : List Nat → Nat) (msg : List Nat),
      msg.length < 2 ∨ crc16 msg ≠ 0 → check_integrity crc16 msg = -1) ∧
    (∀ (crc16 : List Nat → Nat) (msg : List Nat),
      2 ≤ msg.length → crc16 msg = 0 → check_integrity crc16 msg = (msg.length : Int)) ∧
    (∀ (crc16 : List Nat → Nat) (slave : Nat) (input tab_reg : List Nat) (nb_reg : Nat),
      (receive crc16 slave input).status = -1 →
      loop crc16 slave input tab_reg nb_reg = ⟨-1, tab_reg, []⟩) ∧
    ((-1 : Int) ≠ -1 - (MODBUS_EXCEPTION_ILLEGAL_FUNCTION : Int) ∧
      (-1 : Int) ≠ -1 - (MODBUS_EXCEPTION_ILLEGAL_DATA_ADDRESS : Int) ∧
      (-1 : Int) ≠ -1 - (MODBUS_EXCEPTION_ILLEGAL_DATA_VALUE : Int) ∧
      (-1 : Int) ≠ -1 - (MODBUS_INFORMATIVE_NOT_FOR_US : Int) ∧
      (-1 : Int) ≠ -1 - (MODBUS_INFORMATIVE_RX_TIMEOUT : Int)) := by
  refine ⟨?_, ?_, ?_, by decide⟩
  · intro crc16 msg h
    unfold check_integrity
    refine if_neg (fun hc => ?_)
    rcases h with h | h
    · omega
    · exact h hc.2
  · intro crc16 msg h1 h2
    unfold check_integrity
    exact if_pos ⟨h1, h2⟩
  · intro crc16 slave input tab_reg nb_reg h
    cases input with
    | nil =>
      exfalso
      norm_num [receive, receiveAux, MODBUS_INFORMATIVE_RX_TIMEOUT] at h
    | cons b rest =>
      unfold receive at h
      have hs := receiveAux_sent_nil crc16 slave (b :: rest) [] STEP_FUNCTION
        (MODBUS_RTU_FUNCTION + 1) 0 h
      simp only [loop, receive, List.isEmpty_cons, Bool.false_eq_true, if_false, h, hs]
      norm_num

/-- Claim C5, witness: the parts at concrete inputs — a two-byte frame with a
failing checksum, the same frame accepted, and a full cycle on a read frame
whose checksum fails (status -1, table kept, silence). -/
theorem C5_witness :
    check_integrity crcReject [5, 3] = -1 ∧
    check_integrity crcAccept [5, 3] = (2 : Int) ∧
    loop crcReject 5 [5, 3, 0, 0, 0, 1, 0, 0] [9, 9] 2 = ⟨-1, [9, 9], []⟩ :=
  ⟨C5_integrity_gate.1 crcReject [5, 3] (Or.inr (by decide)),
   C5_integrity_gate.2.1 crcAccept [5, 3] (by decide) (by decide),
   C5_integrity_gate.2.2.1 crcReject 5 [5, 3, 0, 0, 0, 1, 0, 0] [9, 9] 2 (by decide)⟩

/-- Classification of the step-completion block for the receiver invariant:
an early return keeps the buffer it was given, and a continuation is either
the header extension of `_STEP_FUNCTION` (4 or 5 more bytes) or the
`_STEP_META` transition, whose guard bounds the announced total length by the
maximum ADU size. -/
lemma onComplete_shape (crc16 : List Nat → Nat) (slave : Nat) (req : List Nat)
    (step function : Nat) :
    (∀ r, onComplete crc16 slave req step function = StepRes.done r → r.req = req) ∧
    (∀ s2 l2 f2, onComplete crc16 slave req step function = StepRes.more s2 l2 f2 →
      (step = STEP_FUNCTION ∧ s2 = STEP_META ∧ (l2 = 4 ∨ l2 = 5)) ∨
      (step = STEP_META ∧ s2 = STEP_DATA ∧ 1 ≤ l2 ∧ req.length % 256 + l2 ≤ 256)) := by
  constructor
  · intro r h
    simp only [onComplete] at h
    split_ifs at h <;> first
      | (cases h; rfl)
      | simp at h
  · intro s2 l2 f2 h
    simp only [onComplete, MODBUS_RTU_SLAVE, MODBUS_RTU_FUNCTION, MODBUS_RTU_CHECKSUM_LENGTH,
      MAX_ADU_LENGTH, STEP_FUNCTION, STEP_META, STEP_DATA, FC_READ_HOLDING_REGISTERS,
      FC_WRITE_MULTIPLE_REGISTERS, MODBUS_BROADCAST_ADDRESS] at h
    simp only [STEP_FUNCTION, STEP_META, STEP_DATA]
    split_ifs at h <;>
      first
        | (obtain ⟨ha, hb, hc⟩ := StepRes.more.inj h
           subst ha
           subst hb
           first
             | exact Or.inl ⟨by assumption, rfl, Or.inl rfl⟩
             | exact Or.inl ⟨by assumption, rfl, Or.inr rfl⟩
             | exact Or.inr ⟨by assumption, rfl, by omega, by omega⟩)
        | exact absurd h (by simp)

/-- The byte count of the request buffer never exceeds the maximum ADU size,
for any reachable receiver state: the state sums the buffer length and the
bytes still to read to 2 while awaiting the function code, to 6 or 7 while
awaiting the header remainder, and to at most 256 afterwards. -/
lemma receiveAux_req_bound (crc16 : List Nat → Nat) (slave : Nat) :
    ∀ (input req : List Nat) (step ltr function : Nat),
      1 ≤ ltr →
      ((step = STEP_FUNCTION ∧ req.length + ltr = 2) ∨
       (step = STEP_META ∧ (req.length + ltr = 6 ∨ req.length + ltr = 7)) ∨
       (step = STEP_DATA ∧ req.length + ltr ≤ 256)) →
      (receiveAux crc16 slave input req step ltr function).req.length ≤ 256 := by
  intro input
  induction input with
  | nil =>
    intro req step ltr function h1 h2
    have hb : req.length ≤ 256 := by
      rcases h2 with ⟨_, h⟩ | ⟨_, h | h⟩ | ⟨_, h⟩ <;> omega
    simpa [receiveAux] using hb
  | cons b rest ih =>
    intro req step ltr function h1 h2
    simp only [receiveAux]
    have hlen : (req ++ [b % 256]).length = req.length + 1 := by simp
    by_cases hl : ltr - 1 = 0
    · rw [if_pos hl]
      cases e : onComplete crc16 slave (req ++ [b % 256]) step function with
      | done r =>
        have hr := (onComplete_shape crc16 slave (req ++ [b % 256]) step function).1 r e
        simp only [e]
        rw [hr, hlen]
        rcases h2 with ⟨_, h⟩ | ⟨_, h | h⟩ | ⟨_, h⟩ <;> omega
      | more s2 l2 f2 =>
        have hm := (onComplete_shape crc16 slave (req ++ [b % 256]) step function).2 s2 l2 f2 e
        simp only [e]
        apply ih
        · rcases hm with ⟨_, _, hc | hc⟩ | ⟨_, _, hc, _⟩ <;> omega
        · rcases hm with ⟨hst, hs2, hc⟩ | ⟨hst, hs2, hc1, hc2⟩
          · refine Or.inr (Or.inl ⟨hs2, ?_⟩)
            rcases h2 with ⟨_, h⟩ | ⟨hmeta, _⟩ | ⟨hdata, _⟩
            · rw [hlen]
              rcases hc with hc | hc <;> omega
            · rw [hst] at hmeta
              simp [STEP_FUNCTION, STEP_META] at hmeta
            · rw [hst] at hdata
              simp [STEP_FUNCTION, STEP_DATA] at hdata
          · refine Or.inr (Or.inr ⟨hs2, ?_⟩)
            rcases h2 with ⟨hfn, _⟩ | ⟨_, h | h⟩ | ⟨hdata, _⟩
            · rw [hst] at hfn
              simp [STEP_FUNCTION, STEP_META] at hfn
            · rw [hlen] at hc2 ⊢
              omega
            · rw [hlen] at hc2 ⊢
              omega
            · rw [hst] at hdata
              simp [STEP_META, STEP_DATA] at hdata
    · rw [if_neg hl]
      apply ih
      · omega
      · rcases h2 with ⟨hst, h⟩ | ⟨hst, h | h⟩ | ⟨hst, h⟩
        · exact Or.inl ⟨hst, by rw [hlen]; omega⟩
        · exact Or.inr (Or.inl ⟨hst, Or.inl (by rw [hlen]; omega)⟩)
        · exact Or.inr (Or.inl ⟨hst, Or.inr (by rw [hlen]; omega)⟩)
        · exact Or.inr (Or.inr ⟨hst, by rw [hlen]; omega⟩)

/-- Claim C9: for every possible incoming byte stream the request buffer
never grows beyond the 256-byte maximum ADU size — every byte store lands at
an index strictly below 256, because each store happens at the index equal to
the buffer length before it. -/
theorem C9_buffer_bound :
    ∀ (crc16 : List Nat → Nat) (slave : Nat) (input : List Nat),
      (receive crc16 slave input).req.length ≤ MAX_ADU_LENGTH := by
  intro crc16 slave input
  have h := receiveAux_req_bound crc16 slave input [] STEP_FUNCTION
    (MODBUS_RTU_FUNCTION + 1) 0 (by simp [ MODBUS_RTU_FUNCTION])
    (Or.inl ⟨rfl, by simp [ MODBUS_RTU_FUNCTION]⟩)
  simpa [receive, MAX_ADU_LENGTH] using h

/-- Claim C10: dispatching a read request (function 0x03) never modifies the
register table — only the write branch of `reply` stores into it. -/
theorem C10_read_preserves_table :
    ∀ (tab_reg : List Nat) (nb_reg : Nat) (req : List Nat) (req_length slave : Nat),
      req.getD MODBUS_RTU_FUNCTION 0 = FC_READ_HOLDING_REGISTERS →
      (reply tab_reg nb_reg req req_length slave).1 = tab_reg := by
  intro tab_reg nb_reg req req_length slave h
  simp only [reply, h]
  split_ifs <;> rfl

/-- Claim C10, witness: an in-bounds read of one register leaves the table
`[1, 2]` unchanged. -/
theorem C10_witness :
    (reply [1, 2] 2 [5, 3, 0, 0, 0, 1, 0, 0] 8 5).1 = [1, 2] :=
  C10_read_preserves_table [1, 2] 2 [5, 3, 0, 0, 0, 1, 0, 0] 8 5 (by decide)

/-- A positional read with default 0 stays below any positive bound that all
elements satisfy. -/
lemma getD_lt_of_all {l : List Nat} {c : Nat} (hc : 0 < c) (h : ∀ v ∈ l, v < c) (k : Nat) :
    l.getD k 0 < c := by
  by_cases hk : k < l.length
  · rw [List.getD_eq_getElem _ _ hk]
    exact h _ (List.getElem_mem hk)
  · rw [List.getD_eq_default _ _ (not_lt.mp hk)]
    exact hc

/-- The `uint16_t` store of a big-endian decode of two bytes does not
truncate. -/
lemma decode16_mod (req : List Nat) (hbytes : ∀ b ∈ req, b < 256) (i j : Nat) :
    (req.getD i 0 * 256 + req.getD j 0) % 65536 = req.getD i 0 * 256 + req.getD j 0 := by
  have h1 := getD_lt_of_all (c := 256) (by norm_num) hbytes i
  have h2 := getD_lt_of_all (c := 256) (by norm_num) hbytes j
  omega

/-- The read loop of the source encodes exactly the specified big-endian
payload once every read value fits in 16 bits. -/
lemma readLoop_eq_beWords (tab_reg : List Nat) :
    ∀ (n s : Nat), (∀ i, s ≤ i → i < s + n → tab_reg.getD i 0 < 65536) →
      readLoop tab_reg s n = beWords tab_reg s n := by
  intro n
  induction n with
  | zero => intro s _; rfl
  | succ n ih =>
    intro s h
    have hv := h s (le_refl s) (by omega)
    have h1 : tab_reg.getD s 0 / 256 % 256 = tab_reg.getD s 0 / 256 :=
      Nat.mod_eq_of_lt (by omega)
    simp only [readLoop, beWords]
    rw [h1, ih (s + 1) (fun i hi1 hi2 => h i (by omega) (by omega))]

/-- The write counter never changes the size of the response buffer. -/
lemma rspStore_length : ∀ (w buf : List Nat) (i : Nat),
    (rspStore buf i w).length = buf.length := by
  intro w
  induction w with
  | nil => intro buf i; rfl
  | cons b bs ih =>
    intro buf i
    rw [rspStore, ih, List.length_set]

/-- As long as the write counter does not wrap, buffer positions below it are
untouched. -/
lemma rspStore_getD_below : ∀ (w buf : List Nat) (i k : Nat),
    k < i → i + w.length ≤ 256 →
    (rspStore buf i w).getD k 0 = buf.getD k 0 := by
  intro w
  induction w with
  | nil => intro buf i k _ _; rfl
  | cons b bs ih =>
    intro buf i k hk hle
    simp only [List.length_cons] at hle
    rw [rspStore, ih _ _ _ (by omega) (by omega)]
    have hi : i % 256 = i := Nat.mod_eq_of_lt (by omega)
    rw [hi]
    by_cases hq : k < buf.length
    · rw [List.getD_eq_getElem _ _ (by simpa using hq), List.getD_eq_getElem _ _ hq,
        List.getElem_set_ne (by omega)]
    · rw [List.getD_eq_default _ _ (by simpa using not_lt.mp hq),
        List.getD_eq_default _ _ (not_lt.mp hq)]

/-- As long as the write counter does not wrap, position `i + k` of the
buffer holds the `k`-th pushed byte. -/
lemma rspStore_getD_at : ∀ (w buf : List Nat) (i k : Nat),
    k < w.length → i + w.length ≤ 256 → buf.length = 256 →
    (rspStore buf i w).getD (i + k) 0 = w.getD k 0 := by
  intro w
  induction w with
  | nil => intro buf i k hk _ _; simp at hk
  | cons b bs ih =>
    intro buf i k hk hle hbuf
    simp only [List.length_cons] at hk hle
    rw [rspStore]
    have hi : i % 256 = i := Nat.mod_eq_of_lt (by omega)
    cases k with
    | zero =>
      rw [rspStore_getD_below bs _ (i + 1) (i + 0) (by omega) (by omega)]
      rw [hi, Nat.add_zero]
      have hset : i < buf.length := by omega
      rw [List.getD_eq_getElem _ _ (by simpa using hset), List.getElem_set_self,
        List.getD_cons_zero]
    | succ k =>
      have hstep : i + (k + 1) = (i + 1) + k := by omega
      rw [hstep, ih _ (i + 1) k (by omega) (by omega)
        (by rw [List.length_set]; exact hbuf)]
      rw [List.getD_cons_succ]

/-- A pushed sequence of fewer than 256 bytes is transmitted as is: the
counter does not wrap and the transmitted prefix is exactly the sequence. -/
lemma sendBuffer_small (w : List Nat) (h : w.length < 256) : sendBuffer w = w := by
  unfold sendBuffer
  rw [Nat.mod_eq_of_lt h]
  apply List.ext_getElem
  · rw [List.length_take, rspStore_length, List.length_replicate]
    omega
  · intro n h1 h2
    rw [List.getElem_take]
    have hat := rspStore_getD_at w (List.replicate 256 0) 0 n h2 (by omega)
      (List.length_replicate 256 0)
    rw [Nat.zero_add] at hat
    rw [← List.getD_eq_getElem _ 0, ← List.getD_eq_getElem _ 0, hat]

/-- Each register contributes two bytes to the specified payload. -/
lemma beWords_length (tab_reg : List Nat) : ∀ (n s : Nat),
    (beWords tab_reg s n).length = 2 * n := by
  intro n
  induction n with
  | zero => intro s; rfl
  | succ n ih =>
    intro s
    simp only [beWords, List.length_cons, ih]
    omega

/-- Claim C6, amended: an in-bounds read request for at most 125 registers —
so that the response and its two checksum bytes fit the 256-byte response
buffer and the `uint8_t` response-length counter never wraps — is answered by
the address byte, the function byte, one byte-length byte equal to
`2 * count`, and the registers `[start, start + count)` encoded big-endian in
ascending order; the table is returned unchanged.  For larger counts the
counter wraps: the payload overwrites the response header and only the
wrapped-length prefix of the buffer is transmitted. -/
theorem C6_read_response_shape :
    ∀ (tab_reg : List Nat) (nb_reg : Nat) (req : List Nat) (req_length slave : Nat),
      (∀ b ∈ req, b < 256) →
      (∀ v ∈ tab_reg, v < 65536) →
      tab_reg.length = nb_reg →
      nb_reg < 65536 →
      req.getD MODBUS_RTU_FUNCTION 0 = FC_READ_HOLDING_REGISTERS →
      (req.getD MODBUS_RTU_SLAVE 0 = slave ∨
        req.getD MODBUS_RTU_SLAVE 0 = MODBUS_BROADCAST_ADDRESS) →
      req.getD 2 0 * 256 + req.getD 3 0 + (req.getD 4 0 * 256 + req.getD 5 0) ≤ nb_reg →
      req.getD 4 0 * 256 + req.getD 5 0 ≤ 125 →
      reply tab_reg nb_reg req req_length slave =
        (tab_reg, some (req.getD MODBUS_RTU_SLAVE 0 :: FC_READ_HOLDING_REGISTERS ::
          2 * (req.getD 4 0 * 256 + req.getD 5 0) ::
          beWords tab_reg (req.getD 2 0 * 256 + req.getD 3 0)
            (req.getD 4 0 * 256 + req.getD 5 0))) := by
  intro tab_reg nb_reg req req_length slave hbytes hvals hlen hnb hfn haddr hbound hsmall
  have e1 : MODBUS_RTU_FUNCTION + 1 = 2 := by norm_num [ MODBUS_RTU_FUNCTION]
  have e2 : MODBUS_RTU_FUNCTION + 2 = 3 := by norm_num [ MODBUS_RTU_FUNCTION]
  have e3 : MODBUS_RTU_FUNCTION + 3 = 4 := by norm_num [ MODBUS_RTU_FUNCTION]
  have e4 : MODBUS_RTU_FUNCTION + 4 = 5 := by norm_num [ MODBUS_RTU_FUNCTION]
  have hg : (req.getD 2 0 * 256 + req.getD 3 0 + (req.getD 4 0 * 256 + req.getD 5 0)) % 65536
      = req.getD 2 0 * 256 + req.getD 3 0 + (req.getD 4 0 * 256 + req.getD 5 0) :=
    Nat.mod_eq_of_lt (by omega)
  have hb2 : (req.getD 4 0 * 256 + req.getD 5 0) * 2 % 256
      = 2 * (req.getD 4 0 * 256 + req.getD 5 0) := by omega
  have hr : reply tab_reg nb_reg req req_length slave =
      (tab_reg, some (sendBuffer (req.getD MODBUS_RTU_SLAVE 0 ::
        FC_READ_HOLDING_REGISTERS :: 2 * (req.getD 4 0 * 256 + req.getD 5 0) ::
        beWords tab_reg (req.getD 2 0 * 256 + req.getD 3 0)
          (req.getD 4 0 * 256 + req.getD 5 0)))) := by
    simp only [reply]
    rw [e1, e2, e3, e4, decode16_mod req hbytes 2 3, decode16_mod req hbytes 4 5]
    rw [if_neg (fun hc => haddr.elim (fun h => hc.1 h) (fun h => hc.2 h))]
    rw [hg, if_neg (by omega), if_pos hfn, Nat.add_sub_cancel_left]
    rw [readLoop_eq_beWords tab_reg (req.getD 4 0 * 256 + req.getD 5 0)
      (req.getD 2 0 * 256 + req.getD 3 0)
      (fun i _ _ => getD_lt_of_all (by norm_num) hvals i)]
    rw [hfn, hb2]
    simp [build_response_basis]
  rw [hr, sendBuffer_small _ (by
    simp only [List.length_cons, beWords_length]
    omega)]

/-- Claim C6, witness: the read scenario of the spec — station 5, registers
10 and 11 holding 100 and 200, request for 2 registers from 10 — answered by
`[5, 3, 4, 0, 100, 0, 200]` with the table unchanged. -/
theorem C6_witness :
    reply [0, 0, 0, 0, 0, 0, 0, 0, 0, 0, 100, 200] 12 [5, 3, 0, 10, 0, 2, 0, 0] 8 5 =
      ([0, 0, 0, 0, 0, 0, 0, 0, 0, 0, 100, 200], some [5, 3, 4, 0, 100, 0, 200]) :=
  (C6_read_response_shape [0, 0, 0, 0, 0, 0, 0, 0, 0, 0, 100, 200] 12
    [5, 3, 0, 10, 0, 2, 0, 0] 8 5 (by decide) (by decide) (by decide) (by decide)
    (by decide) (Or.inl (by decide)) (by decide) (by decide)).trans (by decide)

set_option maxRecDepth 16384 in
/-- Claim C6 as stated is false on the code: for an in-bounds read of 128
registers (start 0, registerCount 130, all-zero table) the `uint8_t`
response-length counter wraps to `(3 + 256) % 256 = 3` after the payload
overwrites the response header, so the transmitted message is the 3-byte
prefix `[0, 0, 0]` — it does not have the claimed `3 + 2 * 128` bytes and
does not even start with the address byte 5. -/
theorem C6_counterexample :
    ((reply (List.replicate 130 0) 130 [5, 3, 0, 0, 0, 128, 0, 0] 8 5).2.getD []).length ≠
        3 + 2 * 128 ∧
      ((reply (List.replicate 130 0) 130 [5, 3, 0, 0, 0, 128, 0, 0] 8 5).2.getD []).getD 0 9 ≠
        5 := by decide

/-- The write loop never changes the length of the register table. -/
lemma writeLoop_length (req : List Nat) :
    ∀ (n : Nat) (tab_reg : List Nat) (i j : Nat),
      (writeLoop req tab_reg i j n).length = tab_reg.length := by
  intro n
  induction n with
  | zero => intro tab_reg i j; rfl
  | succ n ih =>
    intro tab_reg i j
    rw [writeLoop, ih, List.length_set]

/-- Positions outside the written window `[i, i + n)` keep their previous
contents. -/
lemma writeLoop_getD_outside (req : List Nat) :
    ∀ (n : Nat) (tab_reg : List Nat) (i j m : Nat), m < i ∨ i + n ≤ m →
      (writeLoop req tab_reg i j n).getD m 0 = tab_reg.getD m 0 := by
  intro n
  induction n with
  | zero => intro tab_reg i j m _; rfl
  | succ n ih =>
    intro tab_reg i j m hm
    rw [writeLoop, ih _ _ _ _ (by omega)]
    have hne : i ≠ m := by omega
    by_cases hq : m < tab_reg.length
    · rw [List.getD_eq_getElem _ _ (by simpa using hq), List.getD_eq_getElem _ _ hq,
        List.getElem_set_ne hne]
    · rw [List.getD_eq_default _ _ (by simpa using not_lt.mp hq),
        List.getD_eq_default _ _ (not_lt.mp hq)]

/-- Position `i + k` of the written window holds the 16-bit big-endian decode
of the request bytes at offsets `_MODBUS_RTU_FUNCTION + j + 2k` and the next
byte. -/
lemma writeLoop_getD_at (req : List Nat) :
    ∀ (n : Nat) (tab_reg : List Nat) (i j k : Nat), k < n → i + n ≤ tab_reg.length →
      (writeLoop req tab_reg i j n).getD (i + k) 0 =
        (req.getD (MODBUS_RTU_FUNCTION + j + 2 * k) 0 * 256 +
          req.getD (MODBUS_RTU_FUNCTION + j + 2 * k + 1) 0) % 65536 := by
  intro n
  induction n with
  | zero => intro tab_reg i j k hk _; omega
  | succ n ih =>
    intro tab_reg i j k hk hlen
    rw [writeLoop]
    cases k with
    | zero =>
      rw [writeLoop_getD_outside req n _ (i + 1) (j + 2) (i + 0) (Or.inl (by omega))]
      have hi : i + 0 = i := by omega
      rw [hi]
      have hset : i < tab_reg.length := by omega
      rw [List.getD_eq_getElem _ _ (by simpa using hset), List.getElem_set_self]
      have eidx : MODBUS_RTU_FUNCTION + j + 2 * 0 = MODBUS_RTU_FUNCTION + j := by omega
      rw [eidx]
    | succ k =>
      have hstep : i + (k + 1) = (i + 1) + k := by omega
      have hlen2 : (i + 1) + n ≤ (tab_reg.set i ((req.getD (MODBUS_RTU_FUNCTION + j) 0 * 256 +
          req.getD (MODBUS_RTU_FUNCTION + j + 1) 0) % 65536)).length := by
        rw [List.length_set]; omega
      rw [hstep, ih _ (i + 1) (j + 2) k (by omega) hlen2]
      have ea : MODBUS_RTU_FUNCTION + (j + 2) + 2 * k = MODBUS_RTU_FUNCTION + j + 2 * (k + 1) := by
        omega
      rw [ea]

/-- Claim C7: an in-bounds multi-register write (function 0x10) stores, at
each index `start + k` for `k < count`, the big-endian decode of the request
bytes at offsets `7 + 2k` and `8 + 2k` (offset 6 past the function byte,
advancing by two per register); every index outside `[start, start + count)`
is unchanged and the table keeps its length; the response is the address and
function bytes followed by the four request bytes at offsets 2..5 copied
verbatim. -/
theorem C7_write_effect :
    ∀ (tab_reg : List Nat) (nb_reg : Nat) (req : List Nat) (req_length slave : Nat),
      (∀ b ∈ req, b < 256) →
      tab_reg.length = nb_reg →
      nb_reg < 65536 →
      req.getD MODBUS_RTU_FUNCTION 0 = FC_WRITE_MULTIPLE_REGISTERS →
      (req.getD MODBUS_RTU_SLAVE 0 = slave ∨
        req.getD MODBUS_RTU_SLAVE 0 = MODBUS_BROADCAST_ADDRESS) →
      req.getD 2 0 * 256 + req.getD 3 0 + (req.getD 4 0 * 256 + req.getD 5 0) ≤ nb_reg →
      (reply tab_reg nb_reg req req_length slave).2 =
          some (req.getD MODBUS_RTU_SLAVE 0 :: FC_WRITE_MULTIPLE_REGISTERS ::
            (req.drop 2).take 4) ∧
        (reply tab_reg nb_reg req req_length slave).1.length = tab_reg.length ∧
        (∀ k, k < req.getD 4 0 * 256 + req.getD 5 0 →
          (reply tab_reg nb_reg req req_length slave).1.getD
              (req.getD 2 0 * 256 + req.getD 3 0 + k) 0 =
            req.getD (7 + 2 * k) 0 * 256 + req.getD (8 + 2 * k) 0) ∧
        (∀ m, m < req.getD 2 0 * 256 + req.getD 3 0 ∨
            req.getD 2 0 * 256 + req.getD 3 0 + (req.getD 4 0 * 256 + req.getD 5 0) ≤ m →
          (reply tab_reg nb_reg req req_length slave).1.getD m 0 = tab_reg.getD m 0) := by
  intro tab_reg nb_reg req req_length slave hbytes hlen hnb hfn haddr hbound
  have e1 : MODBUS_RTU_FUNCTION + 1 = 2 := by norm_num [ MODBUS_RTU_FUNCTION]
  have e2 : MODBUS_RTU_FUNCTION + 2 = 3 := by norm_num [ MODBUS_RTU_FUNCTION]
  have e3 : MODBUS_RTU_FUNCTION + 3 = 4 := by norm_num [ MODBUS_RTU_FUNCTION]
  have e4 : MODBUS_RTU_FUNCTION + 4 = 5 := by norm_num [ MODBUS_RTU_FUNCTION]
  have hg : (req.getD 2 0 * 256 + req.getD 3 0 + (req.getD 4 0 * 256 + req.getD 5 0)) % 65536
      = req.getD 2 0 * 256 + req.getD 3 0 + (req.getD 4 0 * 256 + req.getD 5 0) :=
    Nat.mod_eq_of_lt (by omega)
  have hfn3 : ¬req.getD MODBUS_RTU_FUNCTION 0 = FC_READ_HOLDING_REGISTERS := by
    rw [hfn]
    norm_num [FC_READ_HOLDING_REGISTERS, FC_WRITE_MULTIPLE_REGISTERS]
  have hr : reply tab_reg nb_reg req req_length slave =
      (writeLoop req tab_reg (req.getD 2 0 * 256 + req.getD 3 0) 6
          (req.getD 4 0 * 256 + req.getD 5 0),
        some (req.getD MODBUS_RTU_SLAVE 0 :: FC_WRITE_MULTIPLE_REGISTERS ::
          (req.drop 2).take 4)) := by
    simp only [reply]
    rw [e1, e2, e3, e4, decode16_mod req hbytes 2 3, decode16_mod req hbytes 4 5]
    rw [if_neg (fun hc => haddr.elim (fun h => hc.1 h) (fun h => hc.2 h))]
    rw [hg, if_neg (by omega), if_neg hfn3, Nat.add_sub_cancel_left, hfn]
    rw [sendBuffer_small (build_response_basis (req.getD MODBUS_RTU_SLAVE 0)
      FC_WRITE_MULTIPLE_REGISTERS ++ (req.drop 2).take 4) (by
        simp only [build_response_basis, List.length_append, List.length_cons,
          List.length_nil, List.length_take]
        omega)]
    simp [build_response_basis]
  rw [hr]
  refine ⟨rfl, writeLoop_length req _ tab_reg _ _, ?_, ?_⟩
  · intro k hk
    have hwin : req.getD 2 0 * 256 + req.getD 3 0 + (req.getD 4 0 * 256 + req.getD 5 0)
        ≤ tab_reg.length := by omega
    have hv := writeLoop_getD_at req (req.getD 4 0 * 256 + req.getD 5 0) tab_reg
      (req.getD 2 0 * 256 + req.getD 3 0) 6 k hk hwin
    have ei : MODBUS_RTU_FUNCTION + 6 + 2 * k = 7 + 2 * k := by
      norm_num [ MODBUS_RTU_FUNCTION]
    have ei2 : 7 + 2 * k + 1 = 8 + 2 * k := by omega
    rw [ei, ei2] at hv
    have hb1 := getD_lt_of_all (c := 256) (by norm_num) hbytes (7 + 2 * k)
    have hb2 := getD_lt_of_all (c := 256) (by norm_num) hbytes (8 + 2 * k)
    rw [hv, Nat.mod_eq_of_lt (by omega)]
  · intro m hm
    exact writeLoop_getD_outside req (req.getD 4 0 * 256 + req.getD 5 0) tab_reg
      (req.getD 2 0 * 256 + req.getD 3 0) 6 m hm

/-- Claim C7, witness: station 5, table `[9, 9, 9, 9]`, write of registers 1
and 2 with values 7 and 261; the table ends as `[9, 7, 261, 9]` and the
response is the basis followed by the echoed start and count fields. -/
theorem C7_witness :
    (reply [9, 9, 9, 9] 4 [5, 16, 0, 1, 0, 2, 4, 0, 7, 1, 5, 0, 0] 13 5).2 =
      some [5, 16, 0, 1, 0, 2] ∧
    (reply [9, 9, 9, 9] 4 [5, 16, 0, 1, 0, 2, 4, 0, 7, 1, 5, 0, 0] 13 5).1 =
      [9, 7, 261, 9] :=
  ⟨(C7_write_effect [9, 9, 9, 9] 4 [5, 16, 0, 1, 0, 2, 4, 0, 7, 1, 5, 0, 0] 13 5
      (by decide) (by decide) (by decide) (by decide) (Or.inl (by decide)) (by decide)).1,
   by decide⟩

end SimpleModbusSlave
